import Mathlib

/-!
Verification development for the concurrent-resource headers
(src/concurrent.hpp, src/concurrent_resource.hpp, src/concurrent_stl.hpp,
src/concurrent_boost.hpp).

The wrappers delegate all blocking to a reader-writer mutex
(std::shared_mutex by default).  We embed the mutex as a counted state
(number of shared holders, number of exclusive holders); an acquisition
that would block is `none`, a completed acquisition is `some` of the new
state.  Accessors are embedded as the pair of their configured access
mode and the stored resource reference; lock-guard ownership (the
std::unique_lock / std::shared_lock `owns` flag moved by the accessor's
move constructor) is embedded separately.  The compile-time capability
concepts of concurrent.hpp are embedded as boolean predicates over the
method-shape signature of a candidate lock type.
-/

namespace mkg

/-- State of the reader-writer mutex (std::shared_mutex / mkg::shared_mutex_t)
observed through the wrapper: how many shared holds and how many exclusive
holds are currently outstanding. -/
structure shared_mutex where
  sharedHolders : Nat
  exclusiveHolders : Nat
deriving DecidableEq, Repr

/-- A freshly constructed mutex: unlocked. -/
def shared_mutex.init : shared_mutex := ⟨0, 0⟩

/-- lock_shared(): completes exactly when no exclusive hold is outstanding,
adding one shared hold; otherwise the caller blocks (`none`). -/
def shared_mutex.lock_shared (m : shared_mutex) : Option shared_mutex :=
  if m.exclusiveHolders = 0 then
    some { m with sharedHolders := m.sharedHolders + 1 }
  else none

/-- unlock_shared(): releases one shared hold; a call without an outstanding
shared hold is a precondition violation (`none`, never produced by the
wrapper). -/
def shared_mutex.unlock_shared (m : shared_mutex) : Option shared_mutex :=
  if m.sharedHolders = 0 then none
  else some { m with sharedHolders := m.sharedHolders - 1 }

/-- lock(): exclusive acquisition completes exactly when no hold of either
kind is outstanding; otherwise the caller blocks (`none`). -/
def shared_mutex.lock (m : shared_mutex) : Option shared_mutex :=
  if m.sharedHolders = 0 ∧ m.exclusiveHolders = 0 then
    some { m with exclusiveHolders := m.exclusiveHolders + 1 }
  else none

/-- unlock(): releases the exclusive hold; a call without an outstanding
exclusive hold is a precondition violation (`none`). -/
def shared_mutex.unlock (m : shared_mutex) : Option shared_mutex :=
  if m.exclusiveHolders = 0 then none
  else some { m with exclusiveHolders := m.exclusiveHolders - 1 }

/-- Access mode an accessor was created in: shared (read-only view) or
exclusive (mutable view). -/
inductive access_mode where
  | shared_read
  | exclusive_write
deriving DecidableEq, Repr

namespace detail

/-- detail::accessor of concurrent_resource.hpp: stores the lock guard and
the type-qualified resource reference.  The guard kind is recorded as the
access mode; the stored reference is embedded as the referenced value. -/
structure accessor (α : Type) where
  mode : access_mode
  resource : α
deriving DecidableEq, Repr

/-- Dereference operator of detail::accessor: returns the stored resource
reference directly. -/
def accessor.deref {α : Type} (a : accessor α) : α := a.resource

/-- detail::member_access_operator_decorator: wraps the resource reference so
that the member-access operator chain can end in an address. -/
structure member_access_operator_decorator (α : Type) where
  value : α
deriving DecidableEq, Repr

/-- The decorator's own member-access operator: yields the address of the
stored reference, i.e. reaches the stored resource itself. -/
def member_access_operator_decorator.arrow {α : Type}
    (d : member_access_operator_decorator α) : α := d.value

/-- Member-access operator of detail::accessor: returns a decorator holding
the resource reference. -/
def accessor.arrow {α : Type} (a : accessor α) :
    member_access_operator_decorator α :=
  ⟨a.resource⟩

/-- Destruction of a detail::accessor: its guard member (read_lock or
write_lock) releases the mutex in the guard's mode. -/
def accessor.destroy {α : Type} (a : accessor α) (m : shared_mutex) :
    Option shared_mutex :=
  match a.mode with
  | .shared_read => m.unlock_shared
  | .exclusive_write => m.unlock

/-- detail::unsafe_accessor of concurrent_resource.hpp (the Lean name drops
the first word of the C++ name): stores only the resource reference, no lock
guard at all, so constructing or destroying one touches no mutex. -/
structure bypass_accessor (α : Type) where
  resource : α
deriving DecidableEq, Repr

/-- Member-access operator of detail::unsafe_accessor: same decorator relay
as the locking accessor. -/
def bypass_accessor.arrow {α : Type} (a : bypass_accessor α) :
    member_access_operator_decorator α :=
  ⟨a.resource⟩

end detail

/-- concurrent_resource of concurrent_resource.hpp: owns the resource and
the reader-writer lock (the rwlock member inherited from lockable<>). -/
structure concurrent_resource (α : Type) where
  resource : α
  rwlock : shared_mutex
deriving DecidableEq, Repr

/-- read_access(): constructs a detail::read_accessor from (resource, rwlock);
the accessor's read_lock member acquires the mutex in shared mode on
construction.  `none` models blocking. -/
def concurrent_resource.read_access {α : Type} (cr : concurrent_resource α) :
    Option (concurrent_resource α × detail.accessor α) :=
  match cr.rwlock.lock_shared with
  | some m => some ({ cr with rwlock := m }, ⟨.shared_read, cr.resource⟩)
  | none => none

/-- write_access(): constructs a detail::write_accessor from (resource, rwlock);
the accessor's write_lock member acquires the mutex in exclusive mode on
construction.  `none` models blocking. -/
def concurrent_resource.write_access {α : Type} (cr : concurrent_resource α) :
    Option (concurrent_resource α × detail.accessor α) :=
  match cr.rwlock.lock with
  | some m => some ({ cr with rwlock := m }, ⟨.exclusive_write, cr.resource⟩)
  | none => none

/-- One observable event on a concurrent_resource instance: construction or
destruction of an accessor by some thread (threads are identified by a Nat).
The bypass events are construction/destruction of the guard-free
detail::unsafe_accessor shape, which holds no lock. -/
inductive event where
  | read_acquire (tid : Nat)
  | read_release (tid : Nat)
  | write_acquire (tid : Nat)
  | write_release (tid : Nat)
  | bypass_acquire (tid : Nat)
  | bypass_release (tid : Nat)
deriving DecidableEq, Repr

/-- Effect of one event on the wrapper state.  Acquisitions go through
read_access / write_access; releases are accessor destructions; bypass
events touch no lock (detail::unsafe_accessor has no guard member). -/
def step {α : Type} (cr : concurrent_resource α) : event → Option (concurrent_resource α)
  | .read_acquire _ => (cr.read_access).map (fun p => p.1)
  | .write_acquire _ => (cr.write_access).map (fun p => p.1)
  | .read_release _ =>
      (detail.accessor.destroy ⟨.shared_read, cr.resource⟩ cr.rwlock).map
        (fun m => { cr with rwlock := m })
  | .write_release _ =>
      (detail.accessor.destroy ⟨.exclusive_write, cr.resource⟩ cr.rwlock).map
        (fun m => { cr with rwlock := m })
  | .bypass_acquire _ => some cr
  | .bypass_release _ => some cr

/-- Run an interleaving (a sequence of events, already linearized) from a
state; `none` when some event blocks or violates a release precondition. -/
def run {α : Type} (cr : concurrent_resource α) : List event → Option (concurrent_resource α)
  | [] => some cr
  | e :: es =>
      match step cr e with
      | some cr2 => run cr2 es
      | none => none

/-- Lock-state invariant maintained by the wrapper: no exclusive hold, or
exactly one exclusive hold with no shared holds. -/
def locks_inv (m : shared_mutex) : Prop :=
  m.exclusiveHolders = 0 ∨ (m.exclusiveHolders = 1 ∧ m.sharedHolders = 0)

theorem step_preserves_inv {α : Type} (cr cr2 : concurrent_resource α) (e : event)
    (hinv : locks_inv cr.rwlock) (hstep : step cr e = some cr2) :
    locks_inv cr2.rwlock := by
  cases e with
  | read_acquire tid =>
      simp only [step, concurrent_resource.read_access, shared_mutex.lock_shared,
        Option.map] at hstep
      by_cases h : cr.rwlock.exclusiveHolders = 0
      · simp only [h, if_true] at hstep
        cases hstep
        exact Or.inl rfl
      · simp [h] at hstep
  | write_acquire tid =>
      simp only [step, concurrent_resource.write_access, shared_mutex.lock,
        Option.map] at hstep
      by_cases h : cr.rwlock.sharedHolders = 0 ∧ cr.rwlock.exclusiveHolders = 0
      · simp only [h, if_true] at hstep
        cases hstep
        exact Or.inr ⟨rfl, rfl⟩
      · simp [h] at hstep
  | read_release tid =>
      simp only [step, detail.accessor.destroy, shared_mutex.unlock_shared,
        Option.map] at hstep
      by_cases h : cr.rwlock.sharedHolders = 0
      · simp [h] at hstep
      · simp only [h, if_false] at hstep
        cases hstep
        rcases hinv with h0 | ⟨h1, h2⟩
        · exact Or.inl h0
        · exact absurd h2 h
  | write_release tid =>
      simp only [step, detail.accessor.destroy, shared_mutex.unlock,
        Option.map] at hstep
      by_cases h : cr.rwlock.exclusiveHolders = 0
      · simp [h] at hstep
      · simp only [h, if_false] at hstep
        cases hstep
        rcases hinv with h0 | ⟨h1, h2⟩
        · exact absurd h0 h
        · exact Or.inl (by simp [h1])
  | bypass_acquire tid =>
      simp only [step] at hstep
      cases hstep
      exact hinv
  | bypass_release tid =>
      simp only [step] at hstep
      cases hstep
      exact hinv

theorem run_preserves_inv {α : Type} (tr : List event) :
    ∀ (cr cr2 : concurrent_resource α), locks_inv cr.rwlock →
      run cr tr = some cr2 → locks_inv cr2.rwlock := by
  induction tr with
  | nil =>
      intro cr cr2 hinv hrun
      simp only [run] at hrun
      cases hrun
      exact hinv
  | cons e es ih =>
      intro cr cr2 hinv hrun
      simp only [run] at hrun
      cases hs : step cr e with
      | none => rw [hs] at hrun; cases hrun
      | some crmid =>
          rw [hs] at hrun
          exact ih crmid cr2 (step_preserves_inv cr crmid e hinv hs) hrun

/-- C1: for every concurrent resource instance and every interleaving of
accessor constructions and destructions, the lock state satisfies one of:
zero holds, only shared holds, or exactly one exclusive hold and no shared
holds (bypass accessors touch no lock state). -/
theorem lock_state_trichotomy {α : Type} (r : α) (tr : List event)
    (cr2 : concurrent_resource α)
    (hrun : run ⟨r, shared_mutex.init⟩ tr = some cr2) :
    (cr2.rwlock.sharedHolders = 0 ∧ cr2.rwlock.exclusiveHolders = 0) ∨
    (0 < cr2.rwlock.sharedHolders ∧ cr2.rwlock.exclusiveHolders = 0) ∨
    (cr2.rwlock.exclusiveHolders = 1 ∧ cr2.rwlock.sharedHolders = 0) := by
  have hinv : locks_inv cr2.rwlock :=
    run_preserves_inv tr ⟨r, shared_mutex.init⟩ cr2 (Or.inl rfl) hrun
  rcases hinv with h0 | ⟨h1, h2⟩
  · rcases Nat.eq_zero_or_pos cr2.rwlock.sharedHolders with hs | hs
    · exact Or.inl ⟨hs, h0⟩
    · exact Or.inr (Or.inl ⟨hs, h0⟩)
  · exact Or.inr (Or.inr ⟨h1, h2⟩)

/-- Witness for C1 on a concrete interleaving: two readers overlap, both
release, then a writer acquires and releases; the invariant holds at the
final state. -/
theorem lock_state_trichotomy_witness :
    run (⟨0, shared_mutex.init⟩ : concurrent_resource Nat)
      [event.read_acquire 0, event.read_acquire 1, event.read_release 0,
       event.read_release 1, event.write_acquire 0, event.write_release 0]
      = some ⟨0, shared_mutex.init⟩ ∧
    ((shared_mutex.init.sharedHolders = 0 ∧ shared_mutex.init.exclusiveHolders = 0) ∨
     (0 < shared_mutex.init.sharedHolders ∧ shared_mutex.init.exclusiveHolders = 0) ∨
     (shared_mutex.init.exclusiveHolders = 1 ∧ shared_mutex.init.sharedHolders = 0)) :=
  ⟨by decide,
   lock_state_trichotomy 0
     [event.read_acquire 0, event.read_acquire 1, event.read_release 0,
      event.read_release 1, event.write_acquire 0, event.write_release 0]
     ⟨0, shared_mutex.init⟩ (by decide)⟩

/-- C2: for all interleavings, while an exclusive accessor obtained from
write_access is alive (an exclusive hold is outstanding), no thread can
obtain any accessor, shared or exclusive; once the exclusive accessor is
released the lock state is free again and both kinds of acquisition can
complete. -/
theorem exclusive_mutual_exclusion {α : Type} (r : α) (tr : List event)
    (cr : concurrent_resource α)
    (hrun : run ⟨r, shared_mutex.init⟩ tr = some cr)
    (hexcl : 0 < cr.rwlock.exclusiveHolders) :
    (∀ tid, step cr (event.read_acquire tid) = none ∧
            step cr (event.write_acquire tid) = none) ∧
    (∀ tid, step cr (event.write_release tid) =
        some { cr with rwlock := ⟨0, 0⟩ } ∧
      ∀ tid2,
        step ({ cr with rwlock := ⟨0, 0⟩ } : concurrent_resource α)
          (event.read_acquire tid2) ≠ none ∧
        step ({ cr with rwlock := ⟨0, 0⟩ } : concurrent_resource α)
          (event.write_acquire tid2) ≠ none) := by
  have hinv : locks_inv cr.rwlock :=
    run_preserves_inv tr ⟨r, shared_mutex.init⟩ cr (Or.inl rfl) hrun
  rcases hinv with h0 | ⟨h1, h2⟩
  · exact absurd h0 (by omega)
  · refine ⟨fun tid => ⟨?_, ?_⟩, fun tid => ⟨?_, fun tid2 => ⟨?_, ?_⟩⟩⟩
    · simp [step, concurrent_resource.read_access, shared_mutex.lock_shared, h1]
    · simp [step, concurrent_resource.write_access, shared_mutex.lock, h1]
    · simp only [step, detail.accessor.destroy, shared_mutex.unlock, h1, h2]
      simp
    · simp [step, concurrent_resource.read_access, shared_mutex.lock_shared]
    · simp [step, concurrent_resource.write_access, shared_mutex.lock]

/-- Witness for C2: after a writer acquires, a second thread can obtain
neither a shared nor an exclusive accessor. -/
theorem exclusive_mutual_exclusion_witness :
    run (⟨0, shared_mutex.init⟩ : concurrent_resource Nat)
      [event.write_acquire 0] = some ⟨0, ⟨0, 1⟩⟩ ∧
    0 < (⟨0, 1⟩ : shared_mutex).exclusiveHolders ∧
    step (⟨0, ⟨0, 1⟩⟩ : concurrent_resource Nat) (event.read_acquire 1) = none ∧
    step (⟨0, ⟨0, 1⟩⟩ : concurrent_resource Nat) (event.write_acquire 1) = none :=
  ⟨by decide, by decide,
   ((exclusive_mutual_exclusion 0 [event.write_acquire 0] ⟨0, ⟨0, 1⟩⟩
       (by decide) (by decide)).1 1).1,
   ((exclusive_mutual_exclusion 0 [event.write_acquire 0] ⟨0, ⟨0, 1⟩⟩
       (by decide) (by decide)).1 1).2⟩

/-- Ownership flag of a lock guard (std::shared_lock / std::unique_lock as
held inside an accessor): `owns = true` means this guard object will release
the mutex when destroyed. -/
structure lock_guard where
  owns : Bool
deriving DecidableEq, Repr

/-- Acquire-on-construct: a guard built by locking the mutex owns its hold. -/
def lock_guard.mk_owning : lock_guard := ⟨true⟩

/-- Move construction of an accessor moves its guard member: the target takes
the ownership flag, the moved-from source is left not owning.  Returns
(target, moved-from source). -/
def lock_guard.move_from (g : lock_guard) : lock_guard × lock_guard :=
  (⟨g.owns⟩, ⟨false⟩)

/-- Number of mutex releases performed by this guard object's destructor. -/
def lock_guard.release_count (g : lock_guard) : Nat :=
  if g.owns then 1 else 0

/-- A chain of n successive ownership transfers starting from a guard:
returns the list of moved-from source objects (in transfer order) and the
final owner. -/
def move_chain : Nat → lock_guard → List lock_guard × lock_guard
  | 0, g => ([], g)
  | Nat.succ n, g =>
      let p := g.move_from
      let q := move_chain n p.1
      (p.2 :: q.1, q.2)

theorem move_chain_spec (n : Nat) (g : lock_guard) :
    (move_chain n g).2 = g ∧
    ∀ h ∈ (move_chain n g).1, h.owns = false := by
  induction n generalizing g with
  | zero => exact ⟨rfl, by intro h hmem; simp [move_chain] at hmem⟩
  | succ n ih =>
      have htail := ih ⟨g.owns⟩
      refine ⟨?_, ?_⟩
      · simpa [move_chain, lock_guard.move_from] using htail.1
      · intro h hmem
        simp only [move_chain, lock_guard.move_from, List.mem_cons] at hmem
        rcases hmem with hmem | hmem
        · simp [hmem]
        · exact htail.2 h hmem

/-- C3: over every accessor lifetime that starts by acquiring the lock and
passes ownership through any number of moves, the moved-from accessors
release the lock zero times in total, the final owner releases exactly once,
and so the whole lifetime releases exactly once. -/
theorem single_release (n : Nat) :
    (((move_chain n lock_guard.mk_owning).1.map lock_guard.release_count).sum = 0) ∧
    (move_chain n lock_guard.mk_owning).2.release_count = 1 ∧
    (((move_chain n lock_guard.mk_owning).1.map lock_guard.release_count).sum +
      (move_chain n lock_guard.mk_owning).2.release_count = 1) := by
  obtain ⟨hfin, hsrc⟩ := move_chain_spec n lock_guard.mk_owning
  have hsum : ((move_chain n lock_guard.mk_owning).1.map lock_guard.release_count).sum = 0 := by
    apply List.sum_eq_zero
    intro x hx
    simp only [List.mem_map] at hx
    obtain ⟨g, hg, hgx⟩ := hx
    have := hsrc g hg
    simp [← hgx, lock_guard.release_count, this]
  refine ⟨hsum, ?_, ?_⟩
  · rw [hfin]; rfl
  · rw [hsum, hfin]; rfl

/-- Method-shape signature of a candidate lock type: which of the operations
required by the concepts of concurrent.hpp the type exposes (with the
required return types). -/
structure lock_iface where
  has_lock : Bool
  has_unlock : Bool
  has_try_lock : Bool
  has_try_lock_for : Bool
  has_try_lock_until : Bool
  has_lock_shared : Bool
  has_unlock_shared : Bool
  has_try_lock_shared : Bool
  has_try_lock_shared_for : Bool
  has_try_lock_shared_until : Bool
deriving DecidableEq, Repr

/-- Concept basic_lockable: lock() and unlock(). -/
def basic_lockable (t : lock_iface) : Bool :=
  t.has_lock && t.has_unlock

/-- Concept lockable: basic_lockable and try_lock(). -/
def lockable (t : lock_iface) : Bool :=
  basic_lockable t && t.has_try_lock

/-- Concept timed_lockable: lockable and try_lock_for / try_lock_until. -/
def timed_lockable (t : lock_iface) : Bool :=
  lockable t && t.has_try_lock_for && t.has_try_lock_until

/-- Concept basic_shared_lockable: basic_lockable and lock_shared() /
unlock_shared(). -/
def basic_shared_lockable (t : lock_iface) : Bool :=
  basic_lockable t && t.has_lock_shared && t.has_unlock_shared

/-- Concept shared_lockable: basic_shared_lockable and try_lock_shared(). -/
def shared_lockable (t : lock_iface) : Bool :=
  basic_shared_lockable t && t.has_try_lock_shared

/-- Concept shared_timed_lockable: shared_lockable and try_lock_shared_for /
try_lock_shared_until. -/
def shared_timed_lockable (t : lock_iface) : Bool :=
  shared_lockable t && t.has_try_lock_shared_for && t.has_try_lock_shared_until

/-- The constraint the class template `concurrent` places on its LockableType
parameter: basic_shared_lockable.  Instantiation is accepted exactly when
the predicate holds; otherwise the build fails. -/
def concurrent_accepts (t : lock_iface) : Bool :=
  basic_shared_lockable t

/-- The constraint the alias shared_accessor places on its LockableType
parameter: basic_shared_lockable. -/
def shared_accessor_accepts (t : lock_iface) : Bool :=
  basic_shared_lockable t

/-- The constraint the alias exclusive_accessor places on its LockableType
parameter: basic_lockable. -/
def exclusive_accessor_accepts (t : lock_iface) : Bool :=
  basic_lockable t

/-- C6: the capability concepts form an increasing hierarchy:
timed_lockable implies lockable implies basic_lockable, and
shared_timed_lockable implies shared_lockable implies basic_shared_lockable
implies basic_lockable. -/
theorem capability_hierarchy (t : lock_iface) :
    (timed_lockable t = true → lockable t = true) ∧
    (lockable t = true → basic_lockable t = true) ∧
    (shared_timed_lockable t = true → shared_lockable t = true) ∧
    (shared_lockable t = true → basic_shared_lockable t = true) ∧
    (basic_shared_lockable t = true → basic_lockable t = true) := by
  refine ⟨?_, ?_, ?_, ?_, ?_⟩ <;>
    intro h <;>
    simp only [timed_lockable, lockable, basic_lockable, shared_timed_lockable,
      shared_lockable, basic_shared_lockable, Bool.and_eq_true] at h ⊢ <;>
    tauto

/-- Witness for C6 at a fully capable signature (the shape of
std::shared_timed_mutex, for which every concept holds). -/
theorem capability_hierarchy_witness :
    timed_lockable ⟨true, true, true, true, true, true, true, true, true, true⟩ = true ∧
    lockable ⟨true, true, true, true, true, true, true, true, true, true⟩ = true ∧
    shared_timed_lockable ⟨true, true, true, true, true, true, true, true, true, true⟩ = true ∧
    shared_lockable ⟨true, true, true, true, true, true, true, true, true, true⟩ = true ∧
    basic_shared_lockable ⟨true, true, true, true, true, true, true, true, true, true⟩ = true ∧
    basic_lockable ⟨true, true, true, true, true, true, true, true, true, true⟩ = true :=
  ⟨by decide, by decide, by decide, by decide, by decide,
   (capability_hierarchy ⟨true, true, true, true, true, true, true, true, true, true⟩).2.2.2.2
     (by decide)⟩

/-- C5: a candidate lock type lacking the minimum capability a component
needs is rejected at compile time: without lock_shared or unlock_shared,
`concurrent` and shared_accessor reject it; without lock or unlock, every
component (including exclusive_accessor) rejects it. -/
theorem capability_gating (t : lock_iface) :
    (t.has_lock_shared = false ∨ t.has_unlock_shared = false →
      concurrent_accepts t = false ∧ shared_accessor_accepts t = false) ∧
    (t.has_lock = false ∨ t.has_unlock = false →
      concurrent_accepts t = false ∧ shared_accessor_accepts t = false ∧
      exclusive_accessor_accepts t = false) := by
  constructor
  · intro h
    have : basic_shared_lockable t = false := by
      simp only [basic_shared_lockable, Bool.and_eq_false_iff]
      rcases h with h | h
      · exact Or.inl (Or.inr h)
      · exact Or.inr h
    exact ⟨this, this⟩
  · intro h
    have hb : basic_lockable t = false := by
      simp only [basic_lockable, Bool.and_eq_false_iff]
      exact h
    have hbs : basic_shared_lockable t = false := by
      simp only [basic_shared_lockable, basic_lockable, Bool.and_eq_false_iff]
      simp only [basic_lockable, Bool.and_eq_false_iff] at hb
      exact Or.inl (Or.inl hb)
    exact ⟨hbs, hbs, hb⟩

/-- Witness for C5: the signature of std::mutex (no shared operations) is
rejected by `concurrent` and shared_accessor but accepted by
exclusive_accessor. -/
theorem capability_gating_witness :
    (⟨true, true, true, false, false, false, false, false, false, false⟩ : lock_iface).has_lock_shared = false ∧
    concurrent_accepts ⟨true, true, true, false, false, false, false, false, false, false⟩ = false ∧
    shared_accessor_accepts ⟨true, true, true, false, false, false, false, false, false, false⟩ = false :=
  ⟨rfl,
   ((capability_gating ⟨true, true, true, false, false, false, false, false, false, false⟩).1
      (Or.inl rfl)).1,
   ((capability_gating ⟨true, true, true, false, false, false, false, false, false, false⟩).1
      (Or.inl rfl)).2⟩

/-- Kinds of argument / parameter relevant to initializing an accessor of
concurrent_resource.hpp: a reference to the wrapped resource, a reference to
the rwlock mutex, or an accessor object of the same type (for the implicit
copy/move constructors). -/
inductive cpp_arg where
  | resource_ref
  | mutex_ref
  | accessor_val
deriving DecidableEq, Repr

/-- Parameter lists of the constructors available on detail::read_accessor
and detail::write_accessor: the inherited accessor(resource, mtx)
constructor, plus the implicit copy/move constructors taking an accessor of
the same type. -/
def read_accessor_ctor_params : List (List cpp_arg) :=
  [[cpp_arg.resource_ref, cpp_arg.mutex_ref], [cpp_arg.accessor_val]]

/-- Parameter lists of the constructors available on
detail::unsafe_read_accessor / detail::unsafe_write_accessor: they declare
no constructors and do not inherit the base unsafe_accessor(resource)
constructor, so only the implicit copy/move constructors exist (and no
default constructor, the base not being default-constructible). -/
def bypass_accessor_ctor_params : List (List cpp_arg) :=
  [[cpp_arg.accessor_val]]

/-- List-initialization viability: an initializer argument list is viable
exactly when some constructor has that parameter list. -/
def list_init_viable (ctors : List (List cpp_arg)) (args : List cpp_arg) : Bool :=
  ctors.any (fun ps => ps == args)

/-- Argument list of the return statements of unsafe_read_access and
unsafe_write_access in concurrent_resource.hpp: a single resource
reference. -/
def bypass_access_return_args : List cpp_arg := [cpp_arg.resource_ref]

/-- C4 (failing input): the return statements of unsafe_read_access and
unsafe_write_access list-initialize a detail::read_accessor /
detail::write_accessor from the resource alone, but no constructor of those
types takes a single resource reference (the locking constructor needs the
mutex too), so instantiating either function is ill-formed; the intended
guard-free detail::unsafe_*_accessor types are likewise not constructible
from a resource reference, while the (resource, mutex) locking construction
is viable. -/
theorem bypass_access_no_viable_ctor :
    list_init_viable read_accessor_ctor_params bypass_access_return_args = false ∧
    list_init_viable bypass_accessor_ctor_params bypass_access_return_args = false ∧
    list_init_viable read_accessor_ctor_params
      [cpp_arg.resource_ref, cpp_arg.mutex_ref] = true := by
  decide

/-- What an access entry point returns: an accessor object, or a boolean
success/failure flag. -/
inductive ret_kind where
  | accessor_object
  | success_flag
deriving DecidableEq, Repr

/-- Shape of one public access entry point, read off its declaration:
whether it blocks until acquisition, whether it is a bounded wait (takes a
timeout), what it returns, and whether it is declared noexcept. -/
structure entry_point where
  blocking : Bool
  bounded_wait : Bool
  returns : ret_kind
  is_noexcept : Bool
deriving DecidableEq, Repr

/-- The four public access entry points of concurrent_resource:
read_access, write_access, unsafe_read_access, unsafe_write_access.  All are
declared noexcept and return accessor types; none takes a timeout. -/
def concurrent_resource_entry_points : List entry_point :=
  [⟨true, false, ret_kind.accessor_object, true⟩,
   ⟨true, false, ret_kind.accessor_object, true⟩,
   ⟨false, false, ret_kind.accessor_object, true⟩,
   ⟨false, false, ret_kind.accessor_object, true⟩]

/-- The two public access entry points of `concurrent`:
read_access_handle and write_access_handle.  Both are declared noexcept and
return accessor types; neither takes a timeout. -/
def concurrent_entry_points : List entry_point :=
  [⟨true, false, ret_kind.accessor_object, true⟩,
   ⟨true, false, ret_kind.accessor_object, true⟩]

/-- Method-shape signature of std::shared_timed_mutex: every operation of
every capability concept is present. -/
def std_shared_timed_mutex_iface : lock_iface :=
  ⟨true, true, true, true, true, true, true, true, true, true⟩

/-- C7 counterexample: std::shared_timed_mutex satisfies
shared_timed_lockable (and timed_lockable) and is accepted as a backing
primitive, yet neither wrapper exposes any bounded-wait entry point, so
bounded-wait entry points do not exist if and only if the capability holds. -/
theorem timed_entry_points_iff_fails :
    shared_timed_lockable std_shared_timed_mutex_iface = true ∧
    timed_lockable std_shared_timed_mutex_iface = true ∧
    concurrent_accepts std_shared_timed_mutex_iface = true ∧
    ((concurrent_entry_points ++ concurrent_resource_entry_points).any
        (fun ep => ep.bounded_wait)) = false ∧
    ¬(((concurrent_entry_points.any (fun ep => ep.bounded_wait)) = true) ↔
        shared_timed_lockable std_shared_timed_mutex_iface = true) := by
  decide

/-- C7 as amended: every access entry point of both wrappers returns an
accessor object (never a boolean failure result), is declared noexcept (so
the lock-busy case never throws), and none is a bounded wait — bounded-wait
boolean entry points therefore exist only if the backing primitive is
timed-capable, vacuously. -/
theorem blocking_acquire_shape :
    ((concurrent_entry_points ++ concurrent_resource_entry_points).all
        (fun ep => (ep.returns == ret_kind.accessor_object) && ep.is_noexcept &&
          !ep.bounded_wait)) = true := by
  decide

/-- The member-access relay struct defined locally inside
mkg::accessor::operator-> in concurrent.hpp: holds the type-qualified
resource reference. -/
structure member_access_operator_decorator (α : Type) where
  value : α
deriving DecidableEq, Repr

/-- The relay's member-access operator: yields the address of the stored
reference, i.e. reaches the stored resource itself. -/
def member_access_operator_decorator.arrow {α : Type}
    (d : member_access_operator_decorator α) : α := d.value

/-- mkg::accessor of concurrent.hpp: a noncopyable RAII handle storing the
lock guard and the type-qualified resource reference (locked_resource).  The
guard kind (SharedLockType or ExclusiveLockType) is recorded as the access
mode. -/
structure accessor (α : Type) where
  mode : access_mode
  locked_resource : α
deriving DecidableEq, Repr

/-- Dereference operator of mkg::accessor: returns locked_resource
directly. -/
def accessor.deref {α : Type} (a : accessor α) : α := a.locked_resource

/-- Member-access operator of mkg::accessor: returns the relay holding
locked_resource. -/
def accessor.arrow {α : Type} (a : accessor α) :
    member_access_operator_decorator α :=
  ⟨a.locked_resource⟩

/-- Destruction of an mkg::accessor: its guard member releases the mutex in
the guard's mode. -/
def accessor.destroy {α : Type} (a : accessor α) (m : shared_mutex) :
    Option shared_mutex :=
  match a.mode with
  | .shared_read => m.unlock_shared
  | .exclusive_write => m.unlock

/-- mkg::concurrent of concurrent.hpp: owns the resource and the mutable
LockableType member (here the std::shared_mutex backend of
concurrent_stl.hpp). -/
structure concurrent (α : Type) where
  resource : α
  lockable : shared_mutex
deriving DecidableEq, Repr

/-- read_access_handle(): constructs shared_accessor_t{lockable, resource};
the SharedLockType guard acquires the mutex in shared mode on construction.
`none` models blocking. -/
def concurrent.read_access_handle {α : Type} (c : concurrent α) :
    Option (concurrent α × accessor α) :=
  match c.lockable.lock_shared with
  | some m => some ({ c with lockable := m }, ⟨.shared_read, c.resource⟩)
  | none => none

/-- write_access_handle(): constructs exclusive_accessor_t{lockable,
resource}; the ExclusiveLockType guard acquires the mutex in exclusive mode
on construction.  `none` models blocking. -/
def concurrent.write_access_handle {α : Type} (c : concurrent α) :
    Option (concurrent α × accessor α) :=
  match c.lockable.lock with
  | some m => some ({ c with lockable := m }, ⟨.exclusive_write, c.resource⟩)
  | none => none

/-- C8: every accessor's dereference returns the wrapped resource reference
directly and totally (no blocking, no failure path): accessors produced by
read_access / read_access_handle are in shared (read-only) mode, those
produced by write_access / write_access_handle are in exclusive (mutable)
mode, and in both wrappers the dereference is the identity on the stored
resource reference. -/
theorem deref_returns_resource {α : Type} (cr : concurrent_resource α)
    (c : concurrent α) :
    (∀ cr2 a, cr.read_access = some (cr2, a) →
      a.deref = cr.resource ∧ a.mode = access_mode.shared_read) ∧
    (∀ cr2 a, cr.write_access = some (cr2, a) →
      a.deref = cr.resource ∧ a.mode = access_mode.exclusive_write) ∧
    (∀ c2 a, c.read_access_handle = some (c2, a) →
      a.deref = c.resource ∧ a.mode = access_mode.shared_read) ∧
    (∀ c2 a, c.write_access_handle = some (c2, a) →
      a.deref = c.resource ∧ a.mode = access_mode.exclusive_write) ∧
    (∀ a : detail.accessor α, a.deref = a.resource) ∧
    (∀ a : accessor α, a.deref = a.locked_resource) := by
  refine ⟨?_, ?_, ?_, ?_, fun a => rfl, fun a => rfl⟩
  · intro cr2 a h
    simp only [concurrent_resource.read_access] at h
    cases hm : cr.rwlock.lock_shared <;> rw [hm] at h
    · cases h
    · injection h with hp
      cases hp
      exact ⟨rfl, rfl⟩
  · intro cr2 a h
    simp only [concurrent_resource.write_access] at h
    cases hm : cr.rwlock.lock <;> rw [hm] at h
    · cases h
    · injection h with hp
      cases hp
      exact ⟨rfl, rfl⟩
  · intro c2 a h
    simp only [concurrent.read_access_handle] at h
    cases hm : c.lockable.lock_shared <;> rw [hm] at h
    · cases h
    · injection h with hp
      cases hp
      exact ⟨rfl, rfl⟩
  · intro c2 a h
    simp only [concurrent.write_access_handle] at h
    cases hm : c.lockable.lock <;> rw [hm] at h
    · cases h
    · injection h with hp
      cases hp
      exact ⟨rfl, rfl⟩

/-- Witness for C8: concrete shared and exclusive acquisitions on unlocked
wrappers, and the dereference equations they yield. -/
theorem deref_returns_resource_witness :
    concurrent_resource.read_access (⟨5, shared_mutex.init⟩ : concurrent_resource Nat)
      = some (⟨5, ⟨1, 0⟩⟩, ⟨access_mode.shared_read, 5⟩) ∧
    detail.accessor.deref (⟨access_mode.shared_read, 5⟩ : detail.accessor Nat) = 5 ∧
    concurrent.write_access_handle (⟨7, shared_mutex.init⟩ : concurrent Nat)
      = some (⟨7, ⟨0, 1⟩⟩, ⟨access_mode.exclusive_write, 7⟩) ∧
    accessor.deref (⟨access_mode.exclusive_write, 7⟩ : accessor Nat) = 7 :=
  ⟨by decide,
   ((deref_returns_resource (⟨5, shared_mutex.init⟩ : concurrent_resource Nat)
       (⟨7, shared_mutex.init⟩ : concurrent Nat)).1
     ⟨5, ⟨1, 0⟩⟩ ⟨access_mode.shared_read, 5⟩ (by decide)).1,
   by decide,
   ((deref_returns_resource (⟨5, shared_mutex.init⟩ : concurrent_resource Nat)
       (⟨7, shared_mutex.init⟩ : concurrent Nat)).2.2.2.1
     ⟨7, ⟨0, 1⟩⟩ ⟨access_mode.exclusive_write, 7⟩ (by decide)).1⟩

/-- A resource that is itself an indirection (a pointer-like value holding a
pointee). -/
structure indirection (β : Type) where
  pointee : β
deriving DecidableEq, Repr

/-- C9: member access through either accessor goes through the intermediate
relay object, which holds exactly the stored resource reference and whose
own member-access operator yields that reference back, so member projections
through the accessor reach the resource's own members — including when the
resource is itself an indirection, in which case the chain reaches the
indirection value itself. -/
theorem member_access_transparency {α : Type} (a : detail.accessor α)
    (b : accessor α) (u : detail.bypass_accessor α) :
    a.arrow = ⟨a.resource⟩ ∧
    (a.arrow).arrow = a.resource ∧
    b.arrow = ⟨b.locked_resource⟩ ∧
    (b.arrow).arrow = b.locked_resource ∧
    u.arrow = ⟨u.resource⟩ ∧
    (u.arrow).arrow = u.resource ∧
    (∀ (β : Type) (f : α → β), f ((a.arrow).arrow) = f a.resource) ∧
    (∀ (β : Type) (md : access_mode) (p : indirection β),
      ((detail.accessor.arrow ⟨md, p⟩).arrow).pointee = p.pointee) :=
  ⟨rfl, rfl, rfl, rfl, rfl, rfl, fun _ _ => rfl, fun _ _ _ => rfl⟩

/-- Lock-level observation of a concurrent_resource access result: the
resulting mutex state, the accessor's mode, and the exposed resource. -/
def obs_resource_access {α : Type}
    (o : Option (concurrent_resource α × detail.accessor α)) :
    Option (shared_mutex × access_mode × α) :=
  o.map (fun p => (p.1.rwlock, p.2.mode, p.2.resource))

/-- Lock-level observation of a `concurrent` access result: the resulting
mutex state, the accessor's mode, and the exposed resource. -/
def obs_handle_access {α : Type}
    (o : Option (concurrent α × accessor α)) :
    Option (shared_mutex × access_mode × α) :=
  o.map (fun p => (p.1.lockable, p.2.mode, p.2.locked_resource))

/-- C10: with the standard-library backend, the two wrapper variants are
behaviorally equivalent: from the same resource and lock state, read_access
and read_access_handle block in the same states and otherwise produce the
same lock transition, the same (shared, read-only) mode and the same exposed
resource; likewise write_access and write_access_handle for the exclusive
mode; and accessor destruction and dereference coincide between the two
accessor shapes. -/
theorem wrapper_equivalence {α : Type} (r : α) (m : shared_mutex) :
    obs_resource_access (concurrent_resource.read_access ⟨r, m⟩) =
      obs_handle_access (concurrent.read_access_handle ⟨r, m⟩) ∧
    obs_resource_access (concurrent_resource.write_access ⟨r, m⟩) =
      obs_handle_access (concurrent.write_access_handle ⟨r, m⟩) ∧
    (∀ (md : access_mode) (v : α),
      detail.accessor.destroy (⟨md, v⟩ : detail.accessor α) m =
        accessor.destroy (⟨md, v⟩ : accessor α) m) ∧
    (∀ (md : access_mode) (v : α),
      detail.accessor.deref (⟨md, v⟩ : detail.accessor α) =
        accessor.deref (⟨md, v⟩ : accessor α)) := by
  refine ⟨?_, ?_, ?_, ?_⟩
  · cases hm : m.lock_shared <;>
      simp [concurrent_resource.read_access, concurrent.read_access_handle,
        obs_resource_access, obs_handle_access, hm]
  · cases hm : m.lock <;>
      simp [concurrent_resource.write_access, concurrent.write_access_handle,
        obs_resource_access, obs_handle_access, hm]
  · intro md v
    cases md <;> rfl
  · intro md v
    rfl

end mkg
